import Mathlib

/-!
Verification development for the inventory/point-of-sale program `da2.py`.

The program is a single-terminal tool over two in-memory tabular datasets
(inventory and sales ledger) loaded from CSV files.  This file gives a
shallow embedding of its data model and of the operations the claims
concern:

* `InventoryRecord` / `SaleRecord` mirror the rows of `inventory.csv` and
  `sales.csv` (columns listed in `main`, lines 431-438 of the source).
* A console line is modelled by `Raw`: the raw text together with the
  outcome of the external parsers Python applies to it (`int(...)`,
  `float(...)`, `pd.to_datetime(...)`) and of the case-insensitive
  sentinel comparisons (`.lower() == "exit"`, `.upper() == 'Y'`).
* The sales checkout loop (`sales_flow`, lines 257-408) is embedded as a
  small-step machine `step` / `runLoop` over `LoopState`, consuming one
  console line per step, followed by `finalizeSession` for the receipt
  and persistence stage.
* `runSalesSession` embeds the sales branch of `main` (lines 480-496):
  it calls `sales_flow` on the process's in-memory datasets and then
  rewrites the inventory file.  Crucially, as in the Python source, the
  in-memory `sales` dataset held by `main` is not updated by
  `sales_flow` (the `pd.concat` on line 407 rebinds a local variable),
  which this model reproduces faithfully.
* `update_product` (lines 187-255), the admin queries
  `check_expired_products` / `check_low_quantity_products`
  (lines 67-114), and the record store `load_or_create_csv`
  (lines 14-28) are embedded directly.

Monetary values (`mrp`, prices, totals) are modelled over `Rat`: the
Python source uses binary floating point, which the rational model
idealises exactly; the discount and tax constants `0.9` and `0.05`
become `9/10` and `5/100`.  Dates and timestamps are modelled as
integers with the usual order.
-/

/-- One row of the inventory dataset (columns `Product_id`,
`product_name`, `total quantity`, `product type`, `expiry date`, `mrp`).
`expiry_date = none` models a null (`NaT`) entry. -/
structure InventoryRecord where
  product_id : Int
  product_name : String
  total_quantity : Int
  product_type : String
  expiry_date : Option Int
  mrp : Rat
deriving DecidableEq

/-- One row of the sales ledger (columns `sales_id`, `product_id`,
`product_name`, `mrp`, `store_price`, `quantity purchased`,
`date of purchase`, `total price`, `billed_by`), as built by the
`sale_record` dictionary on lines 350-360 of the source. -/
structure SaleRecord where
  sales_id : Int
  product_id : Int
  product_name : String
  mrp : Rat
  store_price : Rat
  quantity_purchased : Int
  date_of_purchase : Int
  total_price : Rat
  billed_by : String
deriving DecidableEq

/-- One line typed at the console, together with the outcome of the
external parsers and sentinel tests the Python source applies to it:
`isExitIn` models `text.strip().lower() == "exit"`, `isYesIn` models
`text.strip().upper() == 'Y'`, `asInt` models `int(text)` (`none` when
that raises `ValueError`), `asFloat` models `float(text)`, and `asDate`
models `pd.to_datetime(text)` (`none` when unparseable). -/
structure Raw where
  text : String
  isExitIn : Bool
  isYesIn : Bool
  asInt : Option Int
  asFloat : Option Rat
  asDate : Option Int
deriving DecidableEq

/-- `input(...).strip().lower() == "exit"` test on a console line. -/
def isExit (r : Raw) : Bool := r.isExitIn

/-- `input(...).strip().upper() == 'Y'` test on a console line. -/
def isYes (r : Raw) : Bool := r.isYesIn

/-- `inventory['Product_id'] == product_id` followed by `.iloc[0]`:
the first inventory row whose id matches (source lines 289-295). -/
def findProduct (inv : List InventoryRecord) (pid : Int) : Option InventoryRecord :=
  inv.find? (fun r => r.product_id == pid)

/-- `inventory.loc[product_filter, 'total quantity'] = v`: every row
whose id matches `pid` has its quantity overwritten by `v`
(source line 364). -/
def setQuantity (inv : List InventoryRecord) (pid : Int) (v : Int) : List InventoryRecord :=
  inv.map (fun r => if r.product_id == pid then { r with total_quantity := v } else r)

/-- Expiry test of source line 299:
`pd.notnull(record['expiry date']) and current_date > record['expiry date']`. -/
def isExpired (rec : InventoryRecord) (now : Int) : Bool :=
  match rec.expiry_date with
  | some d => decide (d < now)
  | none => false

/-- `sale_id` allocation at session start (source lines 266-272):
`1` on an empty ledger, otherwise `max(sales_id) + 1`. -/
def next_bill_id (sales : List SaleRecord) : Int :=
  match sales with
  | [] => 1
  | x :: xs => (xs.foldl (fun m r => max m r.sales_id) x.sales_id) + 1

/-- The `sale_record` dictionary built on source lines 334-360 for a
committed line: `store_price = 0.9 * mrp`, `total_price = store_price * qty`. -/
def mkSaleRecord (billId pid : Int) (rec : InventoryRecord) (q : Int)
    (now : Int) (rep : String) : SaleRecord :=
  let mrp := rec.mrp
  let store_price := (9 / 10 : Rat) * mrp
  { sales_id := billId
    product_id := pid
    product_name := rec.product_name
    mrp := mrp
    store_price := store_price
    quantity_purchased := q
    date_of_purchase := now
    total_price := store_price * (q : Rat)
    billed_by := rep }

/-- Where the checkout loop is waiting for its next console line.
`awaitQty` carries the product id typed by the operator and the
snapshot row `product_record` taken on source line 295 (the snapshot is
what lines 324 and 364 read `available_qty` from). -/
inductive Phase where
  | awaitPid
  | awaitQty (pid : Int) (snapshot : InventoryRecord)
  | awaitAnother
deriving DecidableEq

/-- Transient state of one checkout session: the in-memory inventory,
the uncommitted basket `new_sales`, and the prompt the loop is at. -/
structure LoopState where
  inv : List InventoryRecord
  basket : List SaleRecord
  phase : Phase
deriving DecidableEq

/-- How a session ends: `aborted` models the `return` on the `exit`
sentinel (lines 278-280 and 312-313), `finalized` the normal `break`
out of the loop (line 369), `outOfInput` a run whose trace of console
lines was exhausted (the real program would block on `input`). -/
inductive Outcome where
  | aborted
  | finalized
  | outOfInput
deriving DecidableEq

/-- Result of one step of the checkout loop: either the loop continues
with a new state, or it leaves the loop with the final inventory and
basket. -/
inductive StepRes where
  | next (s : LoopState)
  | halt (inv : List InventoryRecord) (basket : List SaleRecord) (o : Outcome)
deriving DecidableEq

/-- Fixed per-session context: `datetime.now()` as read in the session,
the representative's username, and the `bill_id` computed once at
session start. -/
structure Ctx where
  now : Int
  rep : String
  billId : Int

/-- One iteration of the checkout loop of `sales_flow`
(source lines 276-369), consuming one console line:

* at the product-id prompt (line 277): `exit` aborts the session;
  a non-integer, an unknown id, or an expired product re-enters the
  same prompt; otherwise the loop advances to the quantity prompt with
  the snapshot row;
* at the quantity prompt (line 311): `exit` aborts; a non-integer, a
  non-positive quantity, or a quantity above the snapshot's available
  quantity re-prompts; otherwise the line is committed: a `SaleRecord`
  is appended to the basket and the matching inventory rows are set to
  `available_qty - qty` (lines 334-364);
* at the `add another item?` prompt (line 367): `Y` returns to the
  product-id prompt, anything else leaves the loop for finalization. -/
def step (c : Ctx) (s : LoopState) (r : Raw) : StepRes :=
  match s.phase with
  | .awaitPid =>
    if isExit r then .halt s.inv s.basket .aborted
    else
      match r.asInt with
      | none => .next s
      | some pid =>
        match findProduct s.inv pid with
        | none => .next s
        | some rec =>
          if isExpired rec c.now then .next s
          else .next { s with phase := .awaitQty pid rec }
  | .awaitQty pid rec =>
    if isExit r then .halt s.inv s.basket .aborted
    else
      match r.asInt with
      | none => .next s
      | some q =>
        if q ≤ 0 then .next s
        else if rec.total_quantity < q then .next s
        else
          .next { inv := setQuantity s.inv pid (rec.total_quantity - q)
                  basket := s.basket ++ [mkSaleRecord c.billId pid rec q c.now c.rep]
                  phase := .awaitAnother }
  | .awaitAnother =>
    if isYes r then .next { s with phase := .awaitPid }
    else .halt s.inv s.basket .finalized

/-- Inventory, basket and outcome when the checkout loop is left. -/
structure RunRes where
  inv : List InventoryRecord
  basket : List SaleRecord
  outcome : Outcome
deriving DecidableEq

/-- Runs the checkout loop of `sales_flow` over a trace of console
lines. -/
def runLoop (c : Ctx) (s : LoopState) : List Raw → RunRes
  | [] => ⟨s.inv, s.basket, .outOfInput⟩
  | r :: rest =>
    match step c s r with
    | .next s' => runLoop c s' rest
    | .halt inv basket o => ⟨inv, basket, o⟩

/-- The receipt printed on source lines 374-404: the bill id, the lines
of the bill, and `subtotal = sum of total price`, `tax = 0.05 * subtotal`,
`final_total = subtotal + tax`. -/
structure Receipt where
  billId : Int
  lines : List SaleRecord
  subtotal : Rat
  tax : Rat
  final_total : Rat
deriving DecidableEq

/-- Finalization stage of `sales_flow` (source lines 371-408): with an
empty basket nothing happens; otherwise the receipt is computed and the
new sales file contents `pd.concat([sales, new_sales_df])` are written.
Returns (contents written to the sales file if any, receipt if any). -/
def finalizeSession (sales basket : List SaleRecord) (billId : Int) :
    Option (List SaleRecord) × Option Receipt :=
  if basket.isEmpty then (none, none)
  else
    let subtotal := (basket.map (fun l => l.total_price)).sum
    let tax := (5 / 100 : Rat) * subtotal
    let final_total := subtotal + tax
    (some (sales ++ basket), some ⟨billId, basket, subtotal, tax, final_total⟩)

/-- Observable result of one call to `sales_flow`: the in-memory
inventory handed back to `main`, the contents written to the sales
file (if the session finalized with a non-empty basket), the receipt
emitted, and how the session ended.  An aborted session discards its
basket: nothing of it appears in the result. -/
structure SessionResult where
  inventory : List InventoryRecord
  salesWrite : Option (List SaleRecord)
  receipt : Option Receipt
  outcome : Outcome
deriving DecidableEq

/-- `sales_flow(inventory, sales, sales_file, rep_username)`
(source lines 257-408): allocate the bill id, run the checkout loop,
and finalize when the loop was left normally. -/
def sales_flow (inv : List InventoryRecord) (sales : List SaleRecord)
    (now : Int) (rep : String) (inputs : List Raw) : SessionResult :=
  let billId := next_bill_id sales
  let out := runLoop ⟨now, rep, billId⟩ ⟨inv, [], .awaitPid⟩ inputs
  match out.outcome with
  | .finalized =>
    let fin := finalizeSession sales out.basket billId
    ⟨out.inv, fin.1, fin.2, .finalized⟩
  | .aborted => ⟨out.inv, none, none, .aborted⟩
  | .outOfInput => ⟨out.inv, none, none, .outOfInput⟩

/-- The state `main` owns for the process lifetime: the in-memory
inventory and sales datasets loaded at startup (lines 441-442) and the
durable contents of the two CSV files. -/
structure ProcState where
  inventory : List InventoryRecord
  sales : List SaleRecord
  invFile : List InventoryRecord
  salesFile : List SaleRecord
deriving DecidableEq

/-- One sales-representative login handled by `main`
(source lines 492-496): run `sales_flow` and then rewrite the inventory
file.  As in the source, the in-memory `sales` dataset of `main` is not
updated: the `pd.concat` on line 407 rebinds a variable local to
`sales_flow`, so the caller keeps the ledger loaded at startup; only
the sales file on disk receives the appended lines. -/
def runSalesSession (st : ProcState) (now : Int) (rep : String)
    (inputs : List Raw) : ProcState :=
  let out := sales_flow st.inventory st.sales now rep inputs
  { inventory := out.inventory
    sales := st.sales
    invFile := out.inventory
    salesFile :=
      match out.salesWrite with
      | some w => w
      | none => st.salesFile }

/-! ### Generic lemmas about the checkout loop -/

/-- Leaving the loop hands back exactly the current inventory and
basket: every `return`/`break` in `sales_flow` does so. -/
theorem step_halt_eq {c : Ctx} {s : LoopState} {r : Raw}
    {inv : List InventoryRecord} {basket : List SaleRecord} {o : Outcome}
    (h : step c s r = .halt inv basket o) : inv = s.inv ∧ basket = s.basket := by
  rcases s with ⟨sinv, sbasket, phase⟩
  cases phase <;> simp only [step] at h <;> repeat' split at h
  all_goals first
    | (injection h with h1 h2 h3; exact ⟨h1.symm, h2.symm⟩)
    | cases h

/-- Case analysis of a continuing step: either nothing changed (an
error was reported and the prompt re-entered), or the loop advanced to
the quantity prompt with a snapshot of the resolved product, or a line
was committed, or the `add another item?` prompt sent the loop back to
the product-id prompt. -/
theorem step_next_cases {c : Ctx} {s s' : LoopState} {r : Raw}
    (h : step c s r = .next s') :
    s' = s ∨
    (∃ pid rec, s.phase = .awaitPid ∧ findProduct s.inv pid = some rec ∧
      s' = ⟨s.inv, s.basket, .awaitQty pid rec⟩) ∨
    (∃ pid rec q, s.phase = .awaitQty pid rec ∧ r.asInt = some q ∧
      0 < q ∧ q ≤ rec.total_quantity ∧
      s' = ⟨setQuantity s.inv pid (rec.total_quantity - q),
            s.basket ++ [mkSaleRecord c.billId pid rec q c.now c.rep],
            .awaitAnother⟩) ∨
    (s.phase = .awaitAnother ∧ s' = ⟨s.inv, s.basket, .awaitPid⟩) := by
  rcases s with ⟨sinv, sbasket, phase⟩
  cases phase with
  | awaitPid =>
    simp only [step] at h
    split at h
    · cases h
    · cases hint : r.asInt with
      | none => simp only [hint] at h; injection h with h1; exact Or.inl h1.symm
      | some pid =>
        simp only [hint] at h
        cases hfind : findProduct sinv pid with
        | none => simp only [hfind] at h; injection h with h1; exact Or.inl h1.symm
        | some rec =>
          simp only [hfind] at h
          split at h
          · injection h with h1; exact Or.inl h1.symm
          · injection h with h1
            exact Or.inr (Or.inl ⟨pid, rec, rfl, hfind, h1.symm⟩)
  | awaitQty pid rec =>
    simp only [step] at h
    split at h
    · cases h
    · cases hint : r.asInt with
      | none => simp only [hint] at h; injection h with h1; exact Or.inl h1.symm
      | some q =>
        simp only [hint] at h
        split at h
        · injection h with h1; exact Or.inl h1.symm
        · split at h
          · injection h with h1; exact Or.inl h1.symm
          · injection h with h1
            refine Or.inr (Or.inr (Or.inl ⟨pid, rec, q, rfl, rfl, ?_, ?_, h1.symm⟩)) <;> omega
  | awaitAnother =>
    simp only [step] at h
    split at h
    · injection h with h1; exact Or.inr (Or.inr (Or.inr ⟨rfl, h1.symm⟩))
    · cases h

/-- Any property of the loop state preserved by `step` holds of the
inventory and basket handed back by `runLoop`: the result agrees with
some reachable state. -/
theorem runLoop_reach (c : Ctx) (P : LoopState → Prop)
    (hstep : ∀ s r s', P s → step c s r = .next s' → P s') :
    ∀ (l : List Raw) (s : LoopState), P s →
      ∃ s', P s' ∧ (runLoop c s l).inv = s'.inv ∧
        (runLoop c s l).basket = s'.basket := by
  intro l
  induction l with
  | nil => intro s hs; exact ⟨s, hs, rfl, rfl⟩
  | cons r rest ih =>
    intro s hs
    simp only [runLoop]
    cases hst : step c s r with
    | next s'' => exact ih s'' (hstep s r s'' hs hst)
    | halt inv basket o =>
      obtain ⟨h1, h2⟩ := step_halt_eq hst
      exact ⟨s, hs, by simp [h1], by simp [h2]⟩

/-! ### Inventory and basket accounting -/

/-- Quantity the program reads for product `pid`: the `total quantity`
field of the first matching row (`0` when absent, matching nothing the
code ever reads). -/
def qtyOf (inv : List InventoryRecord) (pid : Int) : Int :=
  match findProduct inv pid with
  | some r => r.total_quantity
  | none => 0

/-- Total quantity of product `pid` sold by the lines of a basket. -/
def soldQty (basket : List SaleRecord) (pid : Int) : Int :=
  ((basket.filter (fun l => l.product_id == pid)).map
    (fun l => l.quantity_purchased)).sum

/-- The snapshot row carried by the quantity prompt is the row the
current inventory holds for that product (no mutation happens between
taking the snapshot on line 295 and the commit on line 364). -/
def Coherent (s : LoopState) : Prop :=
  ∀ pid rec, s.phase = .awaitQty pid rec → findProduct s.inv pid = some rec

theorem findProduct_setQuantity_self (inv : List InventoryRecord) (pid : Int) (v : Int) :
    findProduct (setQuantity inv pid v) pid
      = (findProduct inv pid).map (fun r => { r with total_quantity := v }) := by
  induction inv with
  | nil => rfl
  | cons a l ih =>
    by_cases ha : a.product_id = pid
    · have h1 : setQuantity (a :: l) pid v
          = { a with total_quantity := v } :: setQuantity l pid v := by
        simp [setQuantity, ha]
      rw [h1]
      have h2 : findProduct ({ a with total_quantity := v } :: setQuantity l pid v) pid
          = some { a with total_quantity := v } := by
        unfold findProduct
        rw [List.find?_cons_of_pos]
        simp [ha]
      have h3 : findProduct (a :: l) pid = some a := by
        unfold findProduct
        rw [List.find?_cons_of_pos]
        simp [ha]
      rw [h2, h3]
      rfl
    · have h1 : setQuantity (a :: l) pid v = a :: setQuantity l pid v := by
        simp [setQuantity, ha]
      rw [h1]
      have h2 : findProduct (a :: setQuantity l pid v) pid
          = findProduct (setQuantity l pid v) pid := by
        unfold findProduct
        rw [List.find?_cons_of_neg]
        simp [ha]
      have h3 : findProduct (a :: l) pid = findProduct l pid := by
        unfold findProduct
        rw [List.find?_cons_of_neg]
        simp [ha]
      rw [h2, h3, ih]

theorem findProduct_setQuantity_ne (inv : List InventoryRecord) (pid pid' : Int) (v : Int)
    (h : pid' ≠ pid) :
    findProduct (setQuantity inv pid v) pid' = findProduct inv pid' := by
  induction inv with
  | nil => rfl
  | cons a l ih =>
    by_cases ha : a.product_id = pid
    · have ha' : ¬ a.product_id = pid' := by
        rw [ha]; exact fun hh => h hh.symm
      have h1 : setQuantity (a :: l) pid v
          = { a with total_quantity := v } :: setQuantity l pid v := by
        simp [setQuantity, ha]
      rw [h1]
      have h2 : findProduct ({ a with total_quantity := v } :: setQuantity l pid v) pid'
          = findProduct (setQuantity l pid v) pid' := by
        unfold findProduct
        rw [List.find?_cons_of_neg]
        simp [ha']
      have h3 : findProduct (a :: l) pid' = findProduct l pid' := by
        unfold findProduct
        rw [List.find?_cons_of_neg]
        simp [ha']
      rw [h2, h3, ih]
    · have h1 : setQuantity (a :: l) pid v = a :: setQuantity l pid v := by
        simp [setQuantity, ha]
      rw [h1]
      by_cases ha' : a.product_id = pid'
      · have h2 : findProduct (a :: setQuantity l pid v) pid' = some a := by
          unfold findProduct
          rw [List.find?_cons_of_pos]
          simp [ha']
        have h3 : findProduct (a :: l) pid' = some a := by
          unfold findProduct
          rw [List.find?_cons_of_pos]
          simp [ha']
        rw [h2, h3]
      · have h2 : findProduct (a :: setQuantity l pid v) pid'
            = findProduct (setQuantity l pid v) pid' := by
          unfold findProduct
          rw [List.find?_cons_of_neg]
          simp [ha']
        have h3 : findProduct (a :: l) pid' = findProduct l pid' := by
          unfold findProduct
          rw [List.find?_cons_of_neg]
          simp [ha']
        rw [h2, h3, ih]

theorem qtyOf_setQuantity_self (inv : List InventoryRecord) (pid : Int) (v : Int)
    (rec : InventoryRecord) (h : findProduct inv pid = some rec) :
    qtyOf (setQuantity inv pid v) pid = v := by
  simp [qtyOf, findProduct_setQuantity_self, h]

theorem qtyOf_setQuantity_ne (inv : List InventoryRecord) (pid pid' : Int) (v : Int)
    (h : pid' ≠ pid) : qtyOf (setQuantity inv pid v) pid' = qtyOf inv pid' := by
  simp [qtyOf, findProduct_setQuantity_ne inv pid pid' v h]

theorem soldQty_append (basket : List SaleRecord) (l : SaleRecord) (pid : Int) :
    soldQty (basket ++ [l]) pid
      = soldQty basket pid + (if l.product_id = pid then l.quantity_purchased else 0) := by
  by_cases h : l.product_id = pid <;> simp [soldQty, List.filter_append, h]

theorem mem_of_findProduct {inv : List InventoryRecord} {pid : Int}
    {rec : InventoryRecord} (h : findProduct inv pid = some rec) : rec ∈ inv :=
  List.mem_of_find?_eq_some h

theorem findProduct_id {inv : List InventoryRecord} {pid : Int}
    {rec : InventoryRecord} (h : findProduct inv pid = some rec) :
    rec.product_id = pid := by
  have := List.find?_some h
  simpa using this

theorem setQuantity_nonneg {inv : List InventoryRecord} {pid : Int} {v : Int}
    (hinv : ∀ r ∈ inv, 0 ≤ r.total_quantity) (hv : 0 ≤ v) :
    ∀ r ∈ setQuantity inv pid v, 0 ≤ r.total_quantity := by
  intro r hr
  simp only [setQuantity, List.mem_map] at hr
  obtain ⟨a, ha, rfl⟩ := hr
  by_cases h : a.product_id = pid <;> simp [h, hv, hinv a ha]

/-! ### Invariants preserved by the checkout loop -/

theorem step_next_coherent {c : Ctx} {s s' : LoopState} {r : Raw}
    (hco : Coherent s) (h : step c s r = .next s') : Coherent s' := by
  rcases step_next_cases h with h1 | ⟨pid, rec, hp, hfind, h1⟩
    | ⟨pid, rec, q, hp, hint, hq1, hq2, h1⟩ | ⟨hp, h1⟩
  · rwa [h1]
  · subst h1
    intro pid' rec' hph
    injection hph with e1 e2
    subst e1; subst e2
    exact hfind
  · subst h1
    intro pid' rec' hph
    cases hph
  · subst h1
    intro pid' rec' hph
    cases hph

theorem step_preserves_qty {c : Ctx} {inv0 : List InventoryRecord}
    {s s' : LoopState} {r : Raw} (h : step c s r = .next s') (hco : Coherent s)
    (hq : ∀ pid, qtyOf s.inv pid = qtyOf inv0 pid - soldQty s.basket pid) :
    ∀ pid, qtyOf s'.inv pid = qtyOf inv0 pid - soldQty s'.basket pid := by
  rcases step_next_cases h with h1 | ⟨pid, rec, hp, hfind, h1⟩
    | ⟨pid, rec, q, hp, hint, hq1, hq2, h1⟩ | ⟨hp, h1⟩
  · rwa [h1]
  · subst h1; exact hq
  · subst h1
    intro pid'
    have hfind : findProduct s.inv pid = some rec := hco pid rec hp
    have hline_id : (mkSaleRecord c.billId pid rec q c.now c.rep).product_id = pid := rfl
    have hline_q : (mkSaleRecord c.billId pid rec q c.now c.rep).quantity_purchased = q := rfl
    by_cases hpp : pid' = pid
    · subst hpp
      have e1 : qtyOf (setQuantity s.inv pid' (rec.total_quantity - q)) pid'
          = rec.total_quantity - q := qtyOf_setQuantity_self _ _ _ _ hfind
      have e2 : qtyOf s.inv pid' = rec.total_quantity := by
        simp [qtyOf, hfind]
      have e3 := soldQty_append s.basket (mkSaleRecord c.billId pid' rec q c.now c.rep) pid'
      rw [hline_id, if_pos rfl, hline_q] at e3
      have e4 := hq pid'
      simp only [LoopState.inv, LoopState.basket]
      rw [e1, e3]
      omega
    · have e1 : qtyOf (setQuantity s.inv pid (rec.total_quantity - q)) pid'
          = qtyOf s.inv pid' := qtyOf_setQuantity_ne _ _ _ _ hpp
      have e3 := soldQty_append s.basket (mkSaleRecord c.billId pid rec q c.now c.rep) pid'
      rw [hline_id] at e3
      rw [if_neg (fun hh => hpp hh.symm)] at e3
      have e4 := hq pid'
      simp only [LoopState.inv, LoopState.basket]
      rw [e1, e3]
      omega
  · subst h1; exact hq

theorem step_preserves_nonneg {c : Ctx} {s s' : LoopState} {r : Raw}
    (h : step c s r = .next s')
    (hinv : ∀ x ∈ s.inv, 0 ≤ x.total_quantity)
    (hb : ∀ l ∈ s.basket, 1 ≤ l.quantity_purchased) :
    (∀ x ∈ s'.inv, 0 ≤ x.total_quantity) ∧
      (∀ l ∈ s'.basket, 1 ≤ l.quantity_purchased) := by
  rcases step_next_cases h with h1 | ⟨pid, rec, hp, hfind, h1⟩
    | ⟨pid, rec, q, hp, hint, hq1, hq2, h1⟩ | ⟨hp, h1⟩
  · rw [h1]; exact ⟨hinv, hb⟩
  · subst h1; exact ⟨hinv, hb⟩
  · subst h1
    constructor
    · exact setQuantity_nonneg hinv (by omega)
    · intro l hl
      simp only [LoopState.basket, List.mem_append, List.mem_singleton] at hl
      rcases hl with hl | hl
      · exact hb l hl
      · subst hl
        show 1 ≤ q
        omega
  · subst h1; exact ⟨hinv, hb⟩

theorem step_preserves_prices {c : Ctx} {s s' : LoopState} {r : Raw}
    (h : step c s r = .next s')
    (hb : ∀ l ∈ s.basket, l.store_price = (9 / 10 : Rat) * l.mrp ∧
      l.total_price = l.store_price * (l.quantity_purchased : Rat)) :
    ∀ l ∈ s'.basket, l.store_price = (9 / 10 : Rat) * l.mrp ∧
      l.total_price = l.store_price * (l.quantity_purchased : Rat) := by
  rcases step_next_cases h with h1 | ⟨pid, rec, hp, hfind, h1⟩
    | ⟨pid, rec, q, hp, hint, hq1, hq2, h1⟩ | ⟨hp, h1⟩
  · rwa [h1]
  · subst h1; exact hb
  · subst h1
    intro l hl
    simp only [LoopState.basket, List.mem_append, List.mem_singleton] at hl
    rcases hl with hl | hl
    · exact hb l hl
    · subst hl
      exact ⟨rfl, rfl⟩
  · subst h1; exact hb

/-! ### Inventory Query Service (source lines 67-114)

`check_expired_products` and `check_low_quantity_products` build a
pandas boolean mask over the inventory and select the rows where the
mask is true; `maskSelect` models that selection. -/

/-- `df[mask]`: keep the rows whose mask entry is `true`, in order. -/
def maskSelect {α : Type} (l : List α) (m : List Bool) : List α :=
  ((l.zip m).filter (fun p => p.2)).map (fun p => p.1)

/-- `(pd.notnull(inventory['expiry date'])) & (inventory['expiry date'] < current_date)`
followed by `inventory[mask]` (source lines 71-73). -/
def check_expired_products (inv : List InventoryRecord) (now : Int) : List InventoryRecord :=
  maskSelect inv (inv.map (fun r =>
    match r.expiry_date with
    | some d => decide (d < now)
    | none => false))

/-- `inventory['total quantity'] < 20` followed by `inventory[mask]`
(source lines 96-97). -/
def check_low_quantity_products (inv : List InventoryRecord) : List InventoryRecord :=
  maskSelect inv (inv.map (fun r => decide (r.total_quantity < 20)))

theorem maskSelect_map_pred {α : Type} (l : List α) (p : α → Bool) :
    maskSelect l (l.map p) = l.filter p := by
  induction l with
  | nil => rfl
  | cons a t ih =>
    cases hp : p a <;> simp [maskSelect, List.filter_cons, hp] at ih ⊢ <;> exact ih

/-! ### Inventory Edit Service: `update_product` (source lines 187-255) -/

/-- The field selected by the admin's `1`-`5` menu choice, with the
parsed new value. -/
inductive FieldUpdate where
  | name (v : String)
  | quantity (v : Int)
  | ptype (v : String)
  | expiry (v : Int)
  | mrp (v : Rat)
deriving DecidableEq

/-- Overwriting the chosen field of one row, as the
`inventory.loc[product_filter, column] = value` assignments do. -/
def applyField (r : InventoryRecord) : FieldUpdate → InventoryRecord
  | .name v => { r with product_name := v }
  | .quantity v => { r with total_quantity := v }
  | .ptype v => { r with product_type := v }
  | .expiry v => { r with expiry_date := some v }
  | .mrp v => { r with mrp := v }

/-- `inventory.loc[product_filter, column] = value`: every row whose id
matches gets the chosen field overwritten; all other rows are untouched. -/
def setField (inv : List InventoryRecord) (pid : Int) (u : FieldUpdate) :
    List InventoryRecord :=
  inv.map (fun r => if r.product_id == pid then applyField r u else r)

/-- How `update_product` returns: every path of source lines 187-255. -/
inductive UpdateOutcome where
  | cancelled
  | invalidId
  | notFound
  | invalidChoice
  | invalidValue
  | updated
deriving DecidableEq

/-- `update_product(inventory)` (source lines 187-255), reading three
console lines: the product id, the field choice `1`-`5`, and the new
value.  Quantity must parse as `int`, expiry as a date, MRP as `float`;
on a parse failure the update is aborted with the inventory untouched.
The function performs no file write: `main` persists the inventory only
after the whole admin flow returns (line 476). -/
def update_product (inv : List InventoryRecord) (pidIn fieldIn valIn : Raw) :
    UpdateOutcome × List InventoryRecord :=
  if isExit pidIn then (.cancelled, inv)
  else
    match pidIn.asInt with
    | none => (.invalidId, inv)
    | some pid =>
      if ¬ inv.any (fun r => r.product_id == pid) then (.notFound, inv)
      else if isExit fieldIn then (.cancelled, inv)
      else if ¬ (fieldIn.text == "1" || fieldIn.text == "2" || fieldIn.text == "3"
          || fieldIn.text == "4" || fieldIn.text == "5") then (.invalidChoice, inv)
      else if isExit valIn then (.cancelled, inv)
      else if fieldIn.text == "1" then (.updated, setField inv pid (.name valIn.text))
      else if fieldIn.text == "2" then
        match valIn.asInt with
        | some q => (.updated, setField inv pid (.quantity q))
        | none => (.invalidValue, inv)
      else if fieldIn.text == "3" then (.updated, setField inv pid (.ptype valIn.text))
      else if fieldIn.text == "4" then
        match valIn.asDate with
        | some d => (.updated, setField inv pid (.expiry d))
        | none => (.invalidValue, inv)
      else
        match valIn.asFloat with
        | some m => (.updated, setField inv pid (.mrp m))
        | none => (.invalidValue, inv)

/-- Frame property: `inv'` equals `inv` with `f` applied exactly to the
rows whose id is `pid` and every other row untouched, position by
position. -/
def UpdatesOnly (inv inv' : List InventoryRecord) (pid : Int)
    (f : InventoryRecord → InventoryRecord) : Prop :=
  inv'.length = inv.length ∧
    ∀ j (hj : j < inv.length) (hj' : j < inv'.length),
      ((inv.get ⟨j, hj⟩).product_id ≠ pid → inv'.get ⟨j, hj'⟩ = inv.get ⟨j, hj⟩) ∧
      ((inv.get ⟨j, hj⟩).product_id = pid → inv'.get ⟨j, hj'⟩ = f (inv.get ⟨j, hj⟩))

theorem setField_updatesOnly (inv : List InventoryRecord) (pid : Int) (u : FieldUpdate) :
    UpdatesOnly inv (setField inv pid u) pid (fun r => applyField r u) := by
  refine ⟨by simp [setField], ?_⟩
  intro j hj hj'
  constructor
  · intro hne
    have hb : ¬ ((inv.get ⟨j, hj⟩).product_id == pid) = true := by simpa using hne
    simp only [setField, List.get_eq_getElem, List.getElem_map] at hb ⊢
    rw [if_neg hb]
  · intro heq
    have hb : ((inv.get ⟨j, hj⟩).product_id == pid) = true := by simpa using heq
    simp only [setField, List.get_eq_getElem, List.getElem_map] at hb ⊢
    rw [if_pos hb]

/-! ### Record Store: `load_or_create_csv` and CSV round-trip
(source lines 14-28 and 441-446)

The CSV file is modelled one level above textual formatting (which the
round-trip property explicitly ignores): a file is a header row plus a
list of rows of typed cells, a cell being what `pandas` serialises and
re-infers for one value.  `pd.to_datetime(col, errors='coerce')`
(line 446 of the source) is modelled by `coerceDate`: a date cell
parses, anything else becomes absent (`NaT`). -/

/-- One CSV cell as typed by `pandas` on read-back: an integer, free
text, a decimal, a date, or an empty/NaN cell. -/
inductive Cell where
  | intC (n : Int)
  | textC (s : String)
  | decC (q : Rat)
  | dateC (d : Int)
  | emptyC
deriving DecidableEq

/-- A tabular file: the header row and the data rows. -/
structure CsvFile where
  header : List String
  rows : List (List Cell)
deriving DecidableEq

/-- The inventory schema of `main` (source lines 431-434). -/
def inventory_columns : List String :=
  ["Product_id", "product_name", "total quantity", "product type",
   "expiry date", "mrp"]

/-- The sales-ledger schema of `main` (source lines 435-438). -/
def sales_columns : List String :=
  ["sales_id", "product_id", "product_name", "mrp", "store_price",
   "quantity purchased", "date of purchase", "total price", "billed_by"]

/-- `load_or_create_csv(file_path, columns)` (source lines 14-28): when
no file exists at the path (`file = none`), a file holding only the
header columns is written and an empty dataset is returned; otherwise
the existing file is parsed.  Returns the file as it exists after the
call together with the loaded rows. -/
def load_or_create_csv (file : Option CsvFile) (columns : List String) :
    CsvFile × List (List Cell) :=
  match file with
  | none => (⟨columns, []⟩, [])
  | some f => (f, f.rows)

/-- Serialisation of one inventory record into a CSV row, in schema
order; an absent expiry date becomes an empty cell. -/
def encodeInvRecord (r : InventoryRecord) : List Cell :=
  [.intC r.product_id, .textC r.product_name, .intC r.total_quantity,
   .textC r.product_type,
   (match r.expiry_date with
    | some d => .dateC d
    | none => .emptyC),
   .decC r.mrp]

/-- `pd.to_datetime(value, errors='coerce')` on one cell: a date cell
stays a date, anything else becomes absent. -/
def coerceDate : Cell → Option Int
  | .dateC d => some d
  | _ => none

/-- Parsing one CSV row back into an inventory record, with the expiry
column normalised by `coerceDate`; a row of the wrong shape fails. -/
def decodeInvRecord : List Cell → Option InventoryRecord
  | [.intC pid, .textC name, .intC q, .textC t, e, .decC m] =>
    some ⟨pid, name, q, t, coerceDate e, m⟩
  | _ => none

/-- Parsing all data rows; any malformed row fails the load (the
reference behaviour for malformed files is undefined, spec section 9). -/
def decodeRows : List (List Cell) → Option (List InventoryRecord)
  | [] => some []
  | row :: rest =>
    match decodeInvRecord row, decodeRows rest with
    | some r, some rs => some (r :: rs)
    | _, _ => none

/-- `inventory.to_csv(path)`: the file contents written for a dataset. -/
def save_inventory (rs : List InventoryRecord) : CsvFile :=
  ⟨inventory_columns, rs.map encodeInvRecord⟩

/-- Loading the inventory as `main` does (lines 441-446): create or
read the file via `load_or_create_csv`, then decode the rows with the
expiry-date normalisation.  Returns the file as it exists after the
call and the loaded dataset. -/
def load_inventory (file : Option CsvFile) :
    CsvFile × Option (List InventoryRecord) :=
  let lc := load_or_create_csv file inventory_columns
  (lc.1, decodeRows lc.2)

theorem decodeInvRecord_encodeInvRecord (r : InventoryRecord) :
    decodeInvRecord (encodeInvRecord r) = some r := by
  rcases r with ⟨pid, name, q, t, e, m⟩
  cases e <;> rfl

theorem decodeRows_map_encode (rs : List InventoryRecord) :
    decodeRows (rs.map encodeInvRecord) = some rs := by
  induction rs with
  | nil => rfl
  | cons r t ih =>
    simp [decodeRows, decodeInvRecord_encodeInvRecord, ih]

/-! ### Concrete fixtures used by the claim witnesses -/

/-- A product with no expiry date. -/
def pen : InventoryRecord := ⟨1, "Pen", 10, "stationery", none, 20⟩

/-- A product whose expiry date (day 10) lies in the past once
`now = 20`. -/
def soap : InventoryRecord := ⟨2, "Soap", 5, "care", some 10, 100⟩

/-- A product with plenty of stock. -/
def brick : InventoryRecord := ⟨3, "Brick", 50, "build", none, 5⟩

/-- Console line `1`. -/
def rawLine1 : Raw := ⟨"1", false, false, some 1, some 1, none⟩

/-- Console line `2`. -/
def rawLine2 : Raw := ⟨"2", false, false, some 2, some 2, none⟩

/-- Console line `3`. -/
def rawLine3 : Raw := ⟨"3", false, false, some 3, some 3, none⟩

/-- Console line `7`. -/
def rawLine7 : Raw := ⟨"7", false, false, some 7, some 7, none⟩

/-- Console line `99`. -/
def rawLine99 : Raw := ⟨"99", false, false, some 99, some 99, none⟩

/-- Console line `Y`. -/
def rawLineY : Raw := ⟨"Y", false, true, none, none, none⟩

/-- Console line `N`. -/
def rawLineN : Raw := ⟨"N", false, false, none, none, none⟩

/-- Console line `exit`. -/
def rawLineExit : Raw := ⟨"exit", true, false, none, none, none⟩

/-- Console line `abc`: parses under none of the parsers. -/
def rawLineAbc : Raw := ⟨"abc", false, false, none, none, none⟩

/-- A one-line trace selling 1 Pen and declining a second item. -/
def saleOnePen : List Raw := [rawLine1, rawLine1, rawLineN]

/-! ### Claims -/

/-- C1: the claim says that a checkout session started after an earlier
session committed and persisted lines in the same process run still
allocates `sale_id = 1 + max(existing sale_ids)` over the ledger as it
stands, and that finalizing appends without removing previously
committed lines.  The code violates this: `pd.concat` on source line
407 rebinds a variable local to `sales_flow`, so `main`'s in-memory
ledger is never extended, a second session recomputes its bill id from
the stale ledger, and its save rewrites the sales file from that stale
ledger.  Evaluated here on the failing input: starting from an empty
ledger, a first session sells one Pen and persists a line with
`sale_id = 1`; the claim requires the second identical session to use
`sale_id = 2` and leave two lines in the file, but it uses `sale_id = 1`
again and the file ends up with a single line — the first session's
persisted line is gone. -/
theorem c1_sale_id_reuse_and_ledger_overwrite :
    (runSalesSession ⟨[pen], [], [pen], []⟩ 0 "user1" saleOnePen).salesFile.map
        (fun l => l.sales_id) = [1] ∧
    next_bill_id
      (runSalesSession ⟨[pen], [], [pen], []⟩ 0 "user1" saleOnePen).salesFile = 2 ∧
    (runSalesSession (runSalesSession ⟨[pen], [], [pen], []⟩ 0 "user1" saleOnePen)
        0 "user1" saleOnePen).salesFile.map (fun l => l.sales_id) = [1] ∧
    (runSalesSession (runSalesSession ⟨[pen], [], [pen], []⟩ 0 "user1" saleOnePen)
        0 "user1" saleOnePen).salesFile.length = 1 := by
  decide

/-- C2 counterexample: a session that commits one line (3 Pens,
decrementing stock 10 to 7) and then enters `exit` at the quantity
prompt is aborted, yet the stock decrement reaches durable storage:
`main` rewrites the inventory file from the mutated in-memory inventory
(source line 496).  This refutes the claim's "no state change from this
session reaches durable storage". -/
theorem c2_exit_abort_counterexample :
    (sales_flow [pen] [] 0 "user1"
      [rawLine1, rawLine3, rawLineY, rawLine1, rawLineExit]).outcome = .aborted ∧
    qtyOf [pen] 1 = 10 ∧
    qtyOf (runSalesSession ⟨[pen], [], [pen], []⟩ 0 "user1"
      [rawLine1, rawLine3, rawLineY, rawLine1, rawLineExit]).invFile 1 = 7 := by
  decide

/-- C2 (amended): entering the `exit` sentinel at the quantity prompt or
at the product-id prompt aborts the whole session: the basket is
discarded, no receipt is produced, nothing is appended to the sales
ledger and the sales file is not written; however, stock decrements
from lines already committed in this session remain in the in-memory
inventory and are persisted to the inventory file when the flow
returns. -/
theorem c2_exit_abort_amended (st : ProcState) (now : Int) (rep : String)
    (inputs : List Raw)
    (h : (sales_flow st.inventory st.sales now rep inputs).outcome = .aborted) :
    (sales_flow st.inventory st.sales now rep inputs).salesWrite = none ∧
    (sales_flow st.inventory st.sales now rep inputs).receipt = none ∧
    (runSalesSession st now rep inputs).salesFile = st.salesFile ∧
    (runSalesSession st now rep inputs).sales = st.sales := by
  cases hout : (runLoop ⟨now, rep, next_bill_id st.sales⟩
      ⟨st.inventory, [], .awaitPid⟩ inputs).outcome with
  | finalized => simp [sales_flow, hout] at h
  | aborted => refine ⟨?_, ?_, ?_, ?_⟩ <;> simp [sales_flow, runSalesSession, hout]
  | outOfInput => simp [sales_flow, hout] at h

/-- Witness for C2's amended theorem: an immediate `exit` aborts and
the sales file keeps its prior (empty) contents. -/
theorem c2_exit_abort_amended_witness :
    (sales_flow [pen] [] 0 "user1" [rawLineExit]).outcome = .aborted ∧
    (runSalesSession ⟨[pen], [], [pen], []⟩ 0 "user1" [rawLineExit]).salesFile = [] :=
  ⟨by decide,
   (c2_exit_abort_amended ⟨[pen], [], [pen], []⟩ 0 "user1" [rawLineExit]
     (by decide)).2.2.1⟩

/-- C3: within one checkout session, (1) after any trace of console
lines the remaining quantity of every product (as the program reads it:
the first matching row) equals its initial quantity minus the sum of
quantities sold for it by the session's committed lines, and (2) at the
quantity prompt, a requested quantity strictly greater than the
currently remaining quantity (which already reflects earlier
decrements of the same session, since the snapshot row is the current
row) is rejected: the step re-enters the same state, committing no line
and changing no stock. -/
theorem c3_stock_decrement_invariant :
    (∀ (c : Ctx) (inv0 : List InventoryRecord) (inputs : List Raw) (pid : Int),
      qtyOf (runLoop c ⟨inv0, [], .awaitPid⟩ inputs).inv pid
        = qtyOf inv0 pid
          - soldQty (runLoop c ⟨inv0, [], .awaitPid⟩ inputs).basket pid) ∧
    (∀ (c : Ctx) (s : LoopState) (r : Raw) (pid : Int)
        (rec : InventoryRecord) (q : Int),
      s.phase = .awaitQty pid rec → findProduct s.inv pid = some rec →
      isExit r = false → r.asInt = some q → qtyOf s.inv pid < q →
      step c s r = .next s) := by
  constructor
  · intro c inv0 inputs pid
    have hreach := runLoop_reach c
      (fun s => Coherent s ∧ ∀ p, qtyOf s.inv p = qtyOf inv0 p - soldQty s.basket p)
      (fun s r s' hP hst =>
        ⟨step_next_coherent hP.1 hst, step_preserves_qty hst hP.1 hP.2⟩)
      inputs ⟨inv0, [], .awaitPid⟩
      ⟨(by intro p rec hph; cases hph), (by intro p; simp [soldQty])⟩
    obtain ⟨s', ⟨hco, hq⟩, hinv, hbask⟩ := hreach
    rw [hinv, hbask]
    exact hq pid
  · intro c s r pid rec q hph hfind hx hint hlt
    have hqv : qtyOf s.inv pid = rec.total_quantity := by simp [qtyOf, hfind]
    have hlt' : rec.total_quantity < q := by rw [hqv] at hlt; exact hlt
    rcases s with ⟨sinv, sbasket, phase⟩
    simp only [LoopState.phase] at hph
    subst hph
    by_cases hq0 : q ≤ 0
    · simp [step, hx, hint, hq0]
    · simp [step, hx, hint, hq0, hlt']

/-- Witness for C3: selling 3 Pens leaves `10 - 3` in stock, and a
request for 99 Pens at the quantity prompt is rejected in place. -/
theorem c3_stock_decrement_invariant_witness :
    qtyOf (runLoop ⟨0, "user1", 1⟩ ⟨[pen], [], .awaitPid⟩
        [rawLine1, rawLine3, rawLineY]).inv 1
      = qtyOf [pen] 1
        - soldQty (runLoop ⟨0, "user1", 1⟩ ⟨[pen], [], .awaitPid⟩
            [rawLine1, rawLine3, rawLineY]).basket 1 ∧
    step ⟨0, "user1", 1⟩ ⟨[pen], [], .awaitQty 1 pen⟩ rawLine99
      = .next ⟨[pen], [], .awaitQty 1 pen⟩ :=
  ⟨c3_stock_decrement_invariant.1 ⟨0, "user1", 1⟩ [pen]
      [rawLine1, rawLine3, rawLineY] 1,
   c3_stock_decrement_invariant.2 ⟨0, "user1", 1⟩ ⟨[pen], [], .awaitQty 1 pen⟩
      rawLine99 1 pen 99 rfl (by decide) rfl rfl (by decide)⟩

/-- C4: at the product-id prompt, resolving a product whose expiry date
is present and strictly before the current time is rejected: the step
re-enters the same state, so no quantity is prompted, no line item is
created, the basket is unchanged and stock is not decremented
(source lines 297-301). -/
theorem c4_expired_rejected (c : Ctx) (s : LoopState) (r : Raw) (pid : Int)
    (rec : InventoryRecord) (d : Int)
    (hph : s.phase = .awaitPid) (hx : isExit r = false)
    (hint : r.asInt = some pid) (hfind : findProduct s.inv pid = some rec)
    (hexp : rec.expiry_date = some d) (hlt : d < c.now) :
    step c s r = .next s := by
  have hexpd : isExpired rec c.now = true := by simp [isExpired, hexp, hlt]
  rcases s with ⟨sinv, sbasket, phase⟩
  simp only [LoopState.phase] at hph
  subst hph
  simp [step, hx, hint, hfind, hexpd]

/-- Witness for C4: with `now = 20`, product 2 (Soap, expired on
day 10) is rejected at the product-id prompt and the state is
unchanged. -/
theorem c4_expired_rejected_witness :
    step ⟨20, "user1", 1⟩ ⟨[soap], [], .awaitPid⟩ rawLine2
      = .next ⟨[soap], [], .awaitPid⟩ :=
  c4_expired_rejected ⟨20, "user1", 1⟩ ⟨[soap], [], .awaitPid⟩ rawLine2 2 soap 10
    rfl rfl rfl (by decide) rfl (by decide)

/-- C5: every line committed by a checkout session satisfies
`store_price = 0.9 * mrp` and `total_price = store_price * quantity`
(source lines 334-337), and every receipt produced at finalization
satisfies `subtotal = sum of the session's line totals`,
`tax = 0.05 * subtotal` and `final_total = subtotal + tax
= 1.05 * subtotal` (source lines 374-376).  Monetary arithmetic is the
exact rational idealisation of the source's floating point. -/
theorem c5_pricing_and_totals :
    (∀ (c : Ctx) (inv0 : List InventoryRecord) (inputs : List Raw),
      ∀ l ∈ (runLoop c ⟨inv0, [], .awaitPid⟩ inputs).basket,
        l.store_price = (9 / 10 : Rat) * l.mrp ∧
        l.total_price = l.store_price * (l.quantity_purchased : Rat)) ∧
    (∀ (sales basket : List SaleRecord) (billId : Int) (rc : Receipt),
      (finalizeSession sales basket billId).2 = some rc →
        rc.subtotal = (basket.map (fun l => l.total_price)).sum ∧
        rc.tax = (5 / 100 : Rat) * rc.subtotal ∧
        rc.final_total = rc.subtotal + rc.tax ∧
        rc.final_total = (105 / 100 : Rat) * rc.subtotal ∧
        rc.lines = basket) := by
  constructor
  · intro c inv0 inputs
    have hreach := runLoop_reach c
      (fun s => ∀ l ∈ s.basket,
        l.store_price = (9 / 10 : Rat) * l.mrp ∧
        l.total_price = l.store_price * (l.quantity_purchased : Rat))
      (fun s r s' hP hst => step_preserves_prices hst hP)
      inputs ⟨inv0, [], .awaitPid⟩
      (by intro l hl; exact absurd hl (List.not_mem_nil l))
    obtain ⟨s', hP, hinv, hbask⟩ := hreach
    rw [hbask]
    exact hP
  · intro sales basket billId rc h
    simp only [finalizeSession] at h
    split at h
    · cases h
    · injection h with h1
      subst h1
      refine ⟨rfl, rfl, rfl, ?_, rfl⟩
      show (basket.map (fun l => l.total_price)).sum
          + (5 / 100 : Rat) * (basket.map (fun l => l.total_price)).sum
        = (105 / 100 : Rat) * (basket.map (fun l => l.total_price)).sum
      ring

/-- Witness for C5: the one line of a session selling 3 Pens
(`mrp = 20`) and its receipt evaluate to `store_price = 18`,
`total_price = 54`, `subtotal = 54`, `tax = 2.7`,
`final_total = 56.7 = 1.05 * 54`. -/
theorem c5_pricing_and_totals_witness :
    ((mkSaleRecord 1 1 pen 3 0 "user1").store_price
        = (9 / 10 : Rat) * (mkSaleRecord 1 1 pen 3 0 "user1").mrp ∧
      (mkSaleRecord 1 1 pen 3 0 "user1").total_price
        = (mkSaleRecord 1 1 pen 3 0 "user1").store_price
          * ((mkSaleRecord 1 1 pen 3 0 "user1").quantity_purchased : Rat)) ∧
    (Receipt.mk 1 [mkSaleRecord 1 1 pen 3 0 "user1"]
        (([mkSaleRecord 1 1 pen 3 0 "user1"].map (fun l => l.total_price)).sum)
        ((5 / 100 : Rat)
          * ([mkSaleRecord 1 1 pen 3 0 "user1"].map (fun l => l.total_price)).sum)
        (([mkSaleRecord 1 1 pen 3 0 "user1"].map (fun l => l.total_price)).sum
          + (5 / 100 : Rat)
            * ([mkSaleRecord 1 1 pen 3 0 "user1"].map
                (fun l => l.total_price)).sum)).final_total
      = (105 / 100 : Rat)
        * (([mkSaleRecord 1 1 pen 3 0 "user1"].map (fun l => l.total_price)).sum) :=
  ⟨c5_pricing_and_totals.1 ⟨0, "user1", 1⟩ [pen] [rawLine1, rawLine3, rawLineN]
      (mkSaleRecord 1 1 pen 3 0 "user1")
      (show mkSaleRecord 1 1 pen 3 0 "user1" ∈ [mkSaleRecord 1 1 pen 3 0 "user1"]
        from List.mem_singleton.mpr rfl),
   (c5_pricing_and_totals.2 [] [mkSaleRecord 1 1 pen 3 0 "user1"] 1
      (Receipt.mk 1 [mkSaleRecord 1 1 pen 3 0 "user1"]
        (([mkSaleRecord 1 1 pen 3 0 "user1"].map (fun l => l.total_price)).sum)
        ((5 / 100 : Rat)
          * ([mkSaleRecord 1 1 pen 3 0 "user1"].map (fun l => l.total_price)).sum)
        (([mkSaleRecord 1 1 pen 3 0 "user1"].map (fun l => l.total_price)).sum
          + (5 / 100 : Rat)
            * ([mkSaleRecord 1 1 pen 3 0 "user1"].map
                (fun l => l.total_price)).sum))
      rfl).2.2.2.1⟩

/-- C6: for an inventory in which `product_id` identifies at most one
record, `update_product` on an existing id behaves as follows
(source lines 225-255): an unparseable value for quantity (choice `2`),
expiry date (choice `4`) or MRP (choice `5`) aborts the update and
leaves the whole inventory unchanged; a successful update returns
`setField`, which (by `UpdatesOnly`) overwrites exactly the chosen
field of the rows whose id matches — of which, under the uniqueness
hypothesis, there is at most one — and leaves every other field and
every other row untouched.  No file write occurs: `main` persists only
after the admin flow returns (line 476). -/
theorem c6_update_field_frame (inv : List InventoryRecord)
    (pidIn fieldIn valIn : Raw) (pid : Int)
    (hnd : (inv.map (fun r => r.product_id)).Nodup)
    (hx1 : isExit pidIn = false) (hpid : pidIn.asInt = some pid)
    (hfound : inv.any (fun r => r.product_id == pid) = true)
    (hx2 : isExit fieldIn = false) (hx3 : isExit valIn = false) :
    (fieldIn.text = "2" → valIn.asInt = none →
      update_product inv pidIn fieldIn valIn = (.invalidValue, inv)) ∧
    (fieldIn.text = "4" → valIn.asDate = none →
      update_product inv pidIn fieldIn valIn = (.invalidValue, inv)) ∧
    (fieldIn.text = "5" → valIn.asFloat = none →
      update_product inv pidIn fieldIn valIn = (.invalidValue, inv)) ∧
    (∀ u, UpdatesOnly inv (setField inv pid u) pid (fun r => applyField r u)) ∧
    (∀ j k (hj : j < inv.length) (hk : k < inv.length),
      (inv.get ⟨j, hj⟩).product_id = pid → (inv.get ⟨k, hk⟩).product_id = pid →
      j = k) ∧
    (fieldIn.text = "2" → ∀ q : Int, valIn.asInt = some q →
      update_product inv pidIn fieldIn valIn
        = (.updated, setField inv pid (.quantity q))) ∧
    (fieldIn.text = "4" → ∀ d : Int, valIn.asDate = some d →
      update_product inv pidIn fieldIn valIn
        = (.updated, setField inv pid (.expiry d))) ∧
    (fieldIn.text = "5" → ∀ m : Rat, valIn.asFloat = some m →
      update_product inv pidIn fieldIn valIn
        = (.updated, setField inv pid (.mrp m))) ∧
    (fieldIn.text = "1" →
      update_product inv pidIn fieldIn valIn
        = (.updated, setField inv pid (.name valIn.text))) ∧
    (fieldIn.text = "3" →
      update_product inv pidIn fieldIn valIn
        = (.updated, setField inv pid (.ptype valIn.text))) := by
  refine ⟨?_, ?_, ?_, ?_, ?_, ?_, ?_, ?_, ?_, ?_⟩
  · intro h2 hv
    simp [update_product, hx1, hpid, hfound, hx2, hx3, h2, hv]
  · intro h4 hv
    simp [update_product, hx1, hpid, hfound, hx2, hx3, h4, hv]
  · intro h5 hv
    simp [update_product, hx1, hpid, hfound, hx2, hx3, h5, hv]
  · intro u
    exact setField_updatesOnly inv pid u
  · intro j k hj hk hpj hpk
    have hmj : j < (inv.map (fun r => r.product_id)).length := by simpa using hj
    have hmk : k < (inv.map (fun r => r.product_id)).length := by simpa using hk
    have hjk : (inv.map (fun r => r.product_id)).get ⟨j, hmj⟩
        = (inv.map (fun r => r.product_id)).get ⟨k, hmk⟩ := by
      simp only [List.get_eq_getElem, List.getElem_map]
      simp only [List.get_eq_getElem] at hpj hpk
      rw [hpj, hpk]
    have := hnd.get_inj_iff.mp hjk
    exact congrArg Fin.val this
  · intro h2 q hv
    simp [update_product, hx1, hpid, hfound, hx2, hx3, h2, hv]
  · intro h4 d hv
    simp [update_product, hx1, hpid, hfound, hx2, hx3, h4, hv]
  · intro h5 m hv
    simp [update_product, hx1, hpid, hfound, hx2, hx3, h5, hv]
  · intro h1
    simp [update_product, hx1, hpid, hfound, hx2, hx3, h1]
  · intro h3
    simp [update_product, hx1, hpid, hfound, hx2, hx3, h3]

/-- Witness for C6: on the inventory `[pen, soap]` (distinct ids 1, 2),
updating product 1's quantity with `abc` aborts with the inventory
unchanged, while updating it with `7` returns `setField` on field
`quantity`. -/
theorem c6_update_field_frame_witness :
    update_product [pen, soap] rawLine1 rawLine2 rawLineAbc
      = (.invalidValue, [pen, soap]) ∧
    update_product [pen, soap] rawLine1 rawLine2 rawLine7
      = (.updated, setField [pen, soap] 1 (.quantity 7)) :=
  ⟨(c6_update_field_frame [pen, soap] rawLine1 rawLine2 rawLineAbc 1
      (by decide) rfl rfl (by decide) rfl rfl).1 rfl rfl,
   (c6_update_field_frame [pen, soap] rawLine1 rawLine2 rawLine7 1
      (by decide) rfl rfl (by decide) rfl rfl).2.2.2.2.2.1 rfl 7 rfl⟩

/-- C7: `check_expired_products` returns exactly the records whose
expiry date is present and strictly before the given time, in store
order (it equals a filter of the inventory, and membership is
characterised); `check_low_quantity_products` returns exactly the
records with quantity strictly below 20; both are pure functions of
the inventory and return `[]` when nothing matches. -/
theorem c7_query_filters :
    (∀ (inv : List InventoryRecord) (now : Int),
      check_expired_products inv now = inv.filter (fun r =>
        match r.expiry_date with
        | some d => decide (d < now)
        | none => false)) ∧
    (∀ (inv : List InventoryRecord) (now : Int) (r : InventoryRecord),
      r ∈ check_expired_products inv now ↔
        r ∈ inv ∧ ∃ d, r.expiry_date = some d ∧ d < now) ∧
    (∀ inv : List InventoryRecord,
      check_low_quantity_products inv
        = inv.filter (fun r => decide (r.total_quantity < 20))) ∧
    (∀ (inv : List InventoryRecord) (r : InventoryRecord),
      r ∈ check_low_quantity_products inv ↔
        r ∈ inv ∧ r.total_quantity < 20) ∧
    (∀ (inv : List InventoryRecord) (now : Int),
      (∀ r ∈ inv, ∀ d, r.expiry_date = some d → ¬ d < now) →
        check_expired_products inv now = []) ∧
    (∀ inv : List InventoryRecord,
      (∀ r ∈ inv, ¬ r.total_quantity < 20) →
        check_low_quantity_products inv = []) := by
  have hexp : ∀ (inv : List InventoryRecord) (now : Int),
      check_expired_products inv now = inv.filter (fun r =>
        match r.expiry_date with
        | some d => decide (d < now)
        | none => false) :=
    fun inv now => maskSelect_map_pred inv _
  have hlow : ∀ inv : List InventoryRecord,
      check_low_quantity_products inv
        = inv.filter (fun r => decide (r.total_quantity < 20)) :=
    fun inv => maskSelect_map_pred inv _
  refine ⟨hexp, ?_, hlow, ?_, ?_, ?_⟩
  · intro inv now r
    rw [hexp inv now, List.mem_filter]
    cases hE : r.expiry_date with
    | none => simp [hE]
    | some d => simp [hE]
  · intro inv r
    rw [hlow inv, List.mem_filter]
    simp
  · intro inv now h
    rw [hexp inv now]
    rw [List.filter_eq_nil]
    intro r hr
    cases hE : r.expiry_date with
    | none => simp [hE]
    | some d => simpa [hE] using h r hr d hE
  · intro inv h
    rw [hlow inv]
    rw [List.filter_eq_nil]
    intro r hr
    simpa using h r hr

/-- Witness for C7: `[soap]` (expired on day 10) is returned in full at
`now = 20`; an inventory with no expired product and one with no
low-stock product give empty results. -/
theorem c7_query_filters_witness :
    (soap ∈ check_expired_products [soap] 20 ↔
      soap ∈ [soap] ∧ ∃ d, soap.expiry_date = some d ∧ d < 20) ∧
    check_expired_products [pen] 0 = [] ∧
    check_low_quantity_products [brick] = [] :=
  ⟨c7_query_filters.2.1 [soap] 20 soap,
   c7_query_filters.2.2.2.2.1 [pen] 0
     (by
       intro r hr d hd
       rw [List.mem_singleton] at hr
       subst hr
       simp [pen] at hd),
   c7_query_filters.2.2.2.2.2 [brick] (by decide)⟩

/-- C8: saving any inventory dataset and loading it back from the same
location (with the expiry-date normalisation of source line 446 applied
on load) reproduces exactly the same records, textual formatting
ignored; and loading a path where no file exists creates a file holding
only the schema's header columns and returns an empty dataset
(source lines 14-28 and 441-446). -/
theorem c8_csv_round_trip :
    (∀ rs : List InventoryRecord,
      load_inventory (some (save_inventory rs)) = (save_inventory rs, some rs)) ∧
    load_inventory none = (⟨inventory_columns, []⟩, some []) ∧
    (∀ columns : List String,
      load_or_create_csv none columns = (⟨columns, []⟩, [])) := by
  refine ⟨?_, rfl, fun columns => rfl⟩
  intro rs
  simp [load_inventory, load_or_create_csv, save_inventory, decodeRows_map_encode]

/-- C9: finalizing a checkout session with an empty basket does nothing
further: no receipt, no extension of the ledger, no write of the sales
file (source lines 371-372); and whenever `sales_flow` produces no
sales write, the durable sales file is untouched by the whole login
(source lines 406-408 and 492-496). -/
theorem c9_empty_basket_noop :
    (∀ (sales : List SaleRecord) (billId : Int),
      finalizeSession sales [] billId = (none, none)) ∧
    (∀ (st : ProcState) (now : Int) (rep : String) (inputs : List Raw),
      (sales_flow st.inventory st.sales now rep inputs).salesWrite = none →
        (runSalesSession st now rep inputs).salesFile = st.salesFile) := by
  constructor
  · intro sales billId
    rfl
  · intro st now rep inputs h
    simp [runSalesSession, h]

/-- Witness for C9: the empty basket finalizes to no write and no
receipt, and a session that aborts immediately leaves the sales file
(empty here) untouched. -/
theorem c9_empty_basket_noop_witness :
    finalizeSession [] [] 1 = (none, none) ∧
    (runSalesSession ⟨[pen], [], [pen], [mkSaleRecord 1 1 pen 1 0 "user1"]⟩
        0 "user1" [rawLineExit]).salesFile
      = [mkSaleRecord 1 1 pen 1 0 "user1"] :=
  ⟨c9_empty_basket_noop.1 [] 1,
   c9_empty_basket_noop.2 ⟨[pen], [], [pen], [mkSaleRecord 1 1 pen 1 0 "user1"]⟩
     0 "user1" [rawLineExit] rfl⟩

/-- C10: starting a checkout session from an inventory whose quantities
are all non-negative, every committed line's quantity is at least 1
(source lines 315-319) and at most the then-available quantity
(lines 324-332), so after any trace of console lines every inventory
quantity remains non-negative. -/
theorem c10_nonnegative_stock (c : Ctx) (inv0 : List InventoryRecord)
    (inputs : List Raw) (h : ∀ x ∈ inv0, 0 ≤ x.total_quantity) :
    (∀ x ∈ (runLoop c ⟨inv0, [], .awaitPid⟩ inputs).inv,
      0 ≤ x.total_quantity) ∧
    (∀ l ∈ (runLoop c ⟨inv0, [], .awaitPid⟩ inputs).basket,
      1 ≤ l.quantity_purchased) := by
  have hreach := runLoop_reach c
    (fun s => (∀ x ∈ s.inv, 0 ≤ x.total_quantity) ∧
      (∀ l ∈ s.basket, 1 ≤ l.quantity_purchased))
    (fun s r s' hP hst => step_preserves_nonneg hst hP.1 hP.2)
    inputs ⟨inv0, [], .awaitPid⟩
    ⟨h, (by intro l hl; exact absurd hl (List.not_mem_nil l))⟩
  obtain ⟨s', ⟨h1, h2⟩, hinv, hbask⟩ := hreach
  rw [hinv, hbask]
  exact ⟨h1, h2⟩

/-- Witness for C10: after selling 3 of the 10 Pens the remaining row
holds quantity 7 (non-negative) and the committed line has
quantity 3 at least 1. -/
theorem c10_nonnegative_stock_witness :
    (0 : Int) ≤ ({ pen with total_quantity := 10 - 3 } : InventoryRecord).total_quantity ∧
    (1 : Int) ≤ (mkSaleRecord 1 1 pen 3 0 "user1").quantity_purchased :=
  ⟨(c10_nonnegative_stock ⟨0, "user1", 1⟩ [pen] [rawLine1, rawLine3, rawLineN]
      (by decide)).1 ({ pen with total_quantity := 10 - 3 })
      (show ({ pen with total_quantity := 10 - 3 } : InventoryRecord)
          ∈ [{ pen with total_quantity := 10 - 3 }]
        from List.mem_singleton.mpr rfl),
   (c10_nonnegative_stock ⟨0, "user1", 1⟩ [pen] [rawLine1, rawLine3, rawLineN]
      (by decide)).2 (mkSaleRecord 1 1 pen 3 0 "user1")
      (show mkSaleRecord 1 1 pen 3 0 "user1"
          ∈ [mkSaleRecord 1 1 pen 3 0 "user1"]
        from List.mem_singleton.mpr rfl)⟩
